/-
Verification of the short-code generation algorithm and redirect-resolution
engine of a URL-shortener worker.

The TypeScript sources are shallowly embedded as Lean definitions:

* JS numbers used as integers (timestamps, counters, lengths) become `Nat`
  or `Int`; JS numbers used for weights and `Math.random()` become `ℚ`.
* Optional / possibly-`undefined` fields become `Option`; JS truthiness of
  an optional numeric field (`0` is falsy) and of an optional string field
  (`""` is falsy) is modelled explicitly where the source relies on it.
* `async` functions that throw become `Except`-valued functions; a storage
  write that may fail is modelled by a boolean parameter saying whether the
  write fails, and a `.catch(...)` that swallows the failure corresponds to
  simply not consulting that parameter.
* The Cloudflare KV namespace is modelled as a function
  `String → Option URLData` (JSON serialization of records is abstracted
  away: the store holds the records themselves).
* `Date.now()` is passed in as an explicit `now : Nat` argument;
  `Math.random()` as an explicit rational argument.
-/
import Mathlib

deriving instance DecidableEq for Except

namespace Shortener

/-! ## Base62 codec (src/shortener/algorithm.ts) -/

/-- The fixed 62-symbol alphabet `BASE62_CHARS` (digits, lowercase, uppercase). -/
def base62Chars : List Char :=
  "0123456789abcdefghijklmnopqrstuvwxyzABCDEFGHIJKLMNOPQRSTUVWXYZ".toList

/-- Model of `BASE62_CHARS.indexOf(c)`; the JS sentinel `-1` is modelled as `none`. -/
def base62IndexOf (c : Char) : Option Nat :=
  base62Chars.findIdx? (fun ch => ch == c)

/-- The `while (num > 0)` loop of `encodeBase62`, which prepends
`BASE62_CHARS[num % 62]` and continues with `Math.floor(num / 62)`.
The index `n % 62` is always in range, so the `getD` default is never used. -/
def encodeBase62Aux : Nat → List Char
  | 0 => []
  | n + 1 => encodeBase62Aux ((n + 1) / 62) ++ [base62Chars.getD ((n + 1) % 62) ' ']
  decreasing_by simp_wf; omega

/-- Model of `encodeBase62`: zero maps to `BASE62_CHARS[0] = '0'`; otherwise the
place-value loop above. -/
def encodeBase62 (num : Nat) : String :=
  if num = 0 then "0" else String.mk (encodeBase62Aux num)

/-- The character loop of `decodeBase62`: `decoded = decoded * 62 + value`,
throwing (`none`) on a character outside the alphabet. -/
def decodeBase62Aux : Nat → List Char → Option Nat
  | decoded, [] => some decoded
  | decoded, c :: rest =>
    match base62IndexOf c with
    | none => none
    | some value => decodeBase62Aux (decoded * 62 + value) rest

/-- Model of `decodeBase62`. -/
def decodeBase62 (str : String) : Option Nat :=
  decodeBase62Aux 0 str.data

/-! ## Unique-code resolver (src/shortener/algorithm.ts, generateUniqueShortCode)

`generateShortCode(url, attempt, codeLength)` reads `Date.now()` and pads with
`Math.random()` symbols, so within one resolution it is abstracted as a
function `gen : Nat → String` of the attempt counter; the storage probe
`storage.exists` is abstracted as `ex : String → Bool`. -/

/-- Error taxonomy of the shortening path. -/
inductive ShortenError where
  | codeSpaceExhausted
  | validationError
  deriving DecidableEq

/-- The `for (let attempt = 0; attempt < config.maxRetries; attempt++)` loop of
`generateUniqueShortCode`: `remaining` counts the iterations left
(`maxRetries - attempt`).  Each iteration generates a candidate, probes the
store, returns the candidate if absent, and otherwise retries; when the loop
ends the function throws. -/
def uniqueLoop (gen : Nat → String) (ex : String → Bool) :
    Nat → Nat → Except ShortenError String
  | _attempt, 0 => .error .codeSpaceExhausted
  | attempt, remaining + 1 =>
    let shortCode := gen attempt
    if ex shortCode then uniqueLoop gen ex (attempt + 1) remaining
    else .ok shortCode

/-- Model of `generateUniqueShortCode(url, storage, config)` with the candidate
generator and existence probe abstracted as functions. -/
def generateUniqueShortCode (gen : Nat → String) (ex : String → Bool)
    (maxRetries : Nat) : Except ShortenError String :=
  uniqueLoop gen ex 0 maxRetries

/-! ## Custom-code validator (src/shortener/algorithm.ts, validateCustomCode) -/

/-- The fixed reserved-keyword denylist. -/
def reservedCodes : List String :=
  ["api", "health", "admin", "stats", "shorten", "new", "create"]

/-- Membership in the character class of the regex `[a-zA-Z0-9_-]`. -/
def isValidCodeChar (c : Char) : Bool :=
  (('a' ≤ c) && (c ≤ 'z')) || (('A' ≤ c) && (c ≤ 'Z')) ||
    (('0' ≤ c) && (c ≤ '9')) || c == '_' || c == '-'

/-- Model of `/^[a-zA-Z0-9_-]+$/.test(s)`: at least one character and every character
in the class. -/
def matchesValidPattern (s : String) : Bool :=
  !s.data.isEmpty && s.data.all isValidCodeChar

/-- ASCII lowercasing of one character, as `toLowerCase` acts on the ASCII
range (the only range that can reach the reserved-keyword comparison, since
the pattern check has already restricted the string to ASCII). -/
def charToLower (c : Char) : Char :=
  if 'A' ≤ c && c ≤ 'Z' then Char.ofNat (c.toNat + 32) else c

/-- Model of `customCode.toLowerCase()`. -/
def strToLower (s : String) : String :=
  String.mk (s.data.map charToLower)

/-- Model of `validateCustomCode`: length 3..20, pattern check, then the reserved check
against `customCode.toLowerCase()`.  The thrown `Error` messages are abstracted
into the `ShortenError` taxonomy. -/
def validateCustomCode (customCode : String) : Except ShortenError Bool :=
  if customCode.length < 3 || customCode.length > 20 then
    .error .validationError
  else if !matchesValidPattern customCode then
    .error .validationError
  else if reservedCodes.contains (strToLower customCode) then
    .error .validationError
  else
    .ok true

/-! ## Data model (src/storage/interface.ts, handlers/abtest.ts,
handlers/georoute.ts)

`URLData` with the `URLDataWithABTest` / `URLDataWithGeoRouting` extensions
flattened in (they extend `URLData` with one optional field each).  The
untyped `metadata: Record<string, unknown>` bag is modelled by the `Metadata`
structure holding exactly the keys the router reads from it. -/

/-- Model of `ABTestVariant`. JS number weights are modelled as `ℚ`. -/
structure ABTestVariant where
  url : String
  weight : ℚ
  name : Option String
  visitCount : Option Nat
  deriving DecidableEq

/-- Model of `ABTestConfig`. -/
structure ABTestConfig where
  enabled : Bool
  variants : List ABTestVariant
  totalVisits : Option Nat
  deriving DecidableEq

/-- Model of `GeoRoute`. -/
structure GeoRoute where
  country : Option String
  continent : Option String
  region : Option String
  url : String
  name : Option String
  visitCount : Option Nat
  deriving DecidableEq

/-- Model of `GeoRoutingConfig`. -/
structure GeoRoutingConfig where
  enabled : Bool
  routes : List GeoRoute
  defaultUrl : String
  totalVisits : Option Nat
  deriving DecidableEq

/-- Model of `GeoInfo` as extracted from `request.cf` by `extractGeoInfo`. -/
structure GeoInfo where
  country : Option String
  continent : Option String
  region : Option String
  city : Option String
  latitude : Option String
  longitude : Option String
  timezone : Option String
  deriving DecidableEq

/-- The keys the router reads out of the untyped `metadata` bag
(`(urlData.metadata as any).abTest` and `.geoRouting`).  The configuration
handlers never write these keys, which is exactly what claim C2 probes. -/
structure Metadata where
  abTest : Option ABTestConfig := none
  geoRouting : Option GeoRoutingConfig := none
  deriving DecidableEq

/-- Model of `URLData`, with the A/B-test and geo-routing extension fields that the
configuration handlers attach at the top level of the record. -/
structure URLData where
  originalUrl : String
  shortCode : String
  createdAt : Nat
  expiresAt : Option Nat
  visitCount : Nat
  customCode : Bool
  metadata : Option Metadata
  abTest : Option ABTestConfig
  geoRouting : Option GeoRoutingConfig
  deriving DecidableEq

/-! ## Expiration predicate

All three access handlers and `KVStorage.isExpired` use the same JS test
`data.expiresAt && Date.now() > data.expiresAt` (resp. the early-return form
`if (!data.expiresAt) return false; return Date.now() > data.expiresAt`),
so a single helper models it; note JS truthiness makes `expiresAt = 0` count
as unset. -/

/-- Model of `expiresAt && now > expiresAt` with JS truthiness (`0` is falsy). -/
def isExpiredAt (now : Nat) (expiresAt : Option Nat) : Bool :=
  match expiresAt with
  | none => false
  | some e => e != 0 && now > e

/-! ## KV storage adapter (src/storage/kv.ts, `KVStorage`)

The KV namespace is a function `String → Option URLData`; `get` returns the
looked-up value together with the store left behind (the expired branch
awaits `this.delete` before returning `null`). -/

/-- The KV store state. -/
def KVStore : Type := String → Option URLData

/-- Model of `KVStorage.delete`. -/
def kvDelete (store : KVStore) (shortCode : String) : KVStore :=
  fun k => if k == shortCode then none else store k

/-- Model of `KVStorage.get`: absent key gives `null`; a present but expired record is
deleted and reported as `null`; otherwise the record is returned. -/
def kvGet (store : KVStore) (now : Nat) (shortCode : String) :
    Option URLData × KVStore :=
  match store shortCode with
  | none => (none, store)
  | some data =>
    if isExpiredAt now data.expiresAt then
      (none, kvDelete store shortCode)
    else
      (some data, store)

/-! ## Variant selector (src/handlers/abtest.ts, selectVariant) -/

/-- The cumulative-weight walk of `selectVariant`: returns the first variant
whose cumulative weight is `>= random`. -/
def selectVariantLoop (random : ℚ) : ℚ → List ABTestVariant → Option ABTestVariant
  | _cumulative, [] => none
  | cumulative, v :: rest =>
    let c := cumulative + v.weight
    if random ≤ c then some v else selectVariantLoop random c rest

/-- Model of `selectVariant(variants)` with `Math.random()` passed in as `rnd`:
`totalWeight` is the reduce over the weights, `random = rnd * totalWeight`,
then the cumulative walk with the `variants[0]` fallback.  Returns `none`
only for an empty list (where the JS code would crash dereferencing
`undefined`). -/
def selectVariant (variants : List ABTestVariant) (rnd : ℚ) :
    Option ABTestVariant :=
  let totalWeight := variants.foldl (fun sum v => sum + v.weight) 0
  let random := rnd * totalWeight
  match selectVariantLoop random 0 variants with
  | some v => some v
  | none => variants.head?

/-! ## Geo rule matcher (src/handlers/georoute.ts, findMatchingRoute) -/

/-- JS truthiness of an optional string field (`undefined` and `""` falsy). -/
def isTruthyStr (o : Option String) : Bool :=
  match o with
  | none => false
  | some s => !s.isEmpty

/-- The find-predicate of the exact branch:
`r.country === geoInfo.country && r.region === geoInfo.region`. -/
def regionRuleMatch (geoInfo : GeoInfo) (r : GeoRoute) : Bool :=
  r.country == geoInfo.country && r.region == geoInfo.region

/-- The find-predicate of the country branch:
`r.country === geoInfo.country && !r.region`. -/
def countryRuleMatch (geoInfo : GeoInfo) (r : GeoRoute) : Bool :=
  r.country == geoInfo.country && !isTruthyStr r.region

/-- The find-predicate of the continent branch:
`r.continent === geoInfo.continent`. -/
def continentRuleMatch (geoInfo : GeoInfo) (r : GeoRoute) : Bool :=
  r.continent == geoInfo.continent

/-- The first block of `findMatchingRoute`:
`if (geoInfo.country && geoInfo.region) ... routes.find(...)`. -/
def exactBranch (geoInfo : GeoInfo) (routes : List GeoRoute) : Option GeoRoute :=
  if isTruthyStr geoInfo.country && isTruthyStr geoInfo.region then
    routes.find? (regionRuleMatch geoInfo)
  else none

/-- The second block of `findMatchingRoute`:
`if (geoInfo.country) ... routes.find(...)`. -/
def countryBranch (geoInfo : GeoInfo) (routes : List GeoRoute) : Option GeoRoute :=
  if isTruthyStr geoInfo.country then
    routes.find? (countryRuleMatch geoInfo)
  else none

/-- The third block of `findMatchingRoute`:
`if (geoInfo.continent) ... routes.find(...)`. -/
def continentBranch (geoInfo : GeoInfo) (routes : List GeoRoute) :
    Option GeoRoute :=
  if isTruthyStr geoInfo.continent then
    routes.find? (continentRuleMatch geoInfo)
  else none

/-- Model of `findMatchingRoute`: exact (country + region) match first, then country
match, then continent match, each an early return when it hits; `null` when
nothing matches. -/
def findMatchingRoute (geoInfo : GeoInfo) (routes : List GeoRoute) :
    Option GeoRoute :=
  match exactBranch geoInfo routes with
  | some m => some m
  | none =>
    match countryBranch geoInfo routes with
    | some m => some m
    | none => continentBranch geoInfo routes

/-- The target computation of `handleGeoRoutedRedirect`:
`matchedRoute ? matchedRoute.url : urlData.geoRouting.defaultUrl`. -/
def geoTargetUrl (geoInfo : GeoInfo) (cfg : GeoRoutingConfig) : String :=
  match findMatchingRoute geoInfo cfg.routes with
  | some r => r.url
  | none => cfg.defaultUrl

/-! ## Redirect handlers (src/handlers/redirect.ts, abtest.ts, georoute.ts)

The HTTP `Response` objects are abstracted to their decision content: a
successful outcome carries the `Location` destination (a 302 redirect), a
failure carries the error thrown (`NotFound` maps to 404, `Gone` to 410,
a propagated storage failure to a 500 from the global error handler). -/

/-- The access-path error taxonomy. -/
inductive RedirectErr where
  | notFound
  | gone
  | statsFailure
  | internalError
  deriving DecidableEq

/-- Model of `handleRedirect(shortCode, storage)` applied to the record `storage.get`
returned.  The visit-count write is
`storage.incrementStats(shortCode).catch(...)`: fire-and-forget, so the
`incFails` flag (whether that write fails) is swallowed and never consulted. -/
def handleRedirect (urlData : Option URLData) (now : Nat) (_incFails : Bool) :
    Except RedirectErr String :=
  match urlData with
  | none => .error .notFound
  | some data =>
    if isExpiredAt now data.expiresAt then
      .error .gone
    else
      .ok data.originalUrl

/-- Model of `handleABTestRedirect(shortCode, storage)` applied to the record returned
by `storage.get`.  On the fallback path (no `abTest`, disabled, or no
variants) the source runs `await storage.incrementStats(shortCode)` with no
catch, so a failing write (`incFails = true`) propagates; on the variant path
`updateABTestStats(...).catch(() => ...)` swallows the failure. -/
def handleABTestRedirect (urlData : Option URLData) (now : Nat) (rnd : ℚ)
    (incFails : Bool) : Except RedirectErr String :=
  match urlData with
  | none => .error .notFound
  | some data =>
    if isExpiredAt now data.expiresAt then
      .error .gone
    else
      match data.abTest with
      | none =>
        if incFails then .error .statsFailure else .ok data.originalUrl
      | some ab =>
        if !ab.enabled || ab.variants.isEmpty then
          if incFails then .error .statsFailure else .ok data.originalUrl
        else
          match selectVariant ab.variants rnd with
          | some selectedVariant => .ok selectedVariant.url
          | none => .error .internalError

/-- Model of `handleGeoRoutedRedirect(shortCode, request, storage)` applied to the
record returned by `storage.get` and the request geography.  Same structure
as the A/B handler: the fallback path awaits `incrementStats` uncaught, the
matched path swallows the stats failure. -/
def handleGeoRoutedRedirect (urlData : Option URLData) (geoInfo : GeoInfo)
    (now : Nat) (incFails : Bool) : Except RedirectErr String :=
  match urlData with
  | none => .error .notFound
  | some data =>
    if isExpiredAt now data.expiresAt then
      .error .gone
    else
      match data.geoRouting with
      | none =>
        if incFails then .error .statsFailure else .ok data.originalUrl
      | some cfg =>
        if !cfg.enabled || cfg.routes.isEmpty then
          if incFails then .error .statsFailure else .ok data.originalUrl
        else
          .ok (geoTargetUrl geoInfo cfg)

/-- The end-to-end resolution of `GET /:shortCode` through the `KVStorage`
adapter the worker constructs: `storage.get` (which already hides expired
records) feeding `handleRedirect`. -/
def resolveRedirectKV (store : KVStore) (now : Nat) (shortCode : String)
    (incFails : Bool) : Except RedirectErr String :=
  handleRedirect (kvGet store now shortCode).1 now incFails

/-! ## Router dispatch (src/index.ts, fetch, lines 257-275) -/

/-- Which handler the `GET /:shortCode` route hands the request to. -/
inductive DispatchTarget where
  | geoRouted
  | abTested
  | plainRedirect
  deriving DecidableEq

/-- Model of `(urlData.metadata as any).geoRouting?.enabled`. -/
def metaGeoEnabled (u : URLData) : Bool :=
  match u.metadata with
  | none => false
  | some m =>
    match m.geoRouting with
    | none => false
    | some cfg => cfg.enabled

/-- Model of `(urlData.metadata as any).abTest?.enabled`. -/
def metaABEnabled (u : URLData) : Bool :=
  match u.metadata with
  | none => false
  | some m =>
    match m.abTest with
    | none => false
    | some cfg => cfg.enabled

/-- The dispatch decision of the `GET /:shortCode` route: geo routing is
checked first, then A/B testing, both read from the `metadata` bag; anything
else goes to `handleRedirect`. -/
def dispatchRedirect (urlData : Option URLData) : DispatchTarget :=
  match urlData with
  | none => .plainRedirect
  | some d =>
    if metaGeoEnabled d then .geoRouted
    else if metaABEnabled d then .abTested
    else .plainRedirect

/-! ## Configuration endpoints (handlers/abtest.ts lines 115-127,
handlers/georoute.ts lines 157-170)

Only the record update each handler persists with `storage.set` is modelled
(body parsing and validation precede it and do not touch the record). -/

/-- The record update of `handleConfigureABTest`: ensure `metadata` exists
(`if (!urlData.metadata) urlData.metadata = \x7b\x7d`), then assign
`urlData.abTest` at the top level with
`variants: body.variants || urlData.abTest?.variants || []` and
`totalVisits: urlData.abTest?.totalVisits || 0`. -/
def applyConfigureABTest (u : URLData) (enabled : Bool)
    (bodyVariants : Option (List ABTestVariant)) : URLData :=
  let meta := match u.metadata with
    | none => ({} : Metadata)
    | some m => m
  { u with
    metadata := some meta
    abTest := some
      { enabled := enabled
        variants :=
          match bodyVariants with
          | some vs => vs
          | none =>
            match u.abTest with
            | some ab => ab.variants
            | none => []
        totalVisits := some
          (match u.abTest with
           | some ab =>
             match ab.totalVisits with
             | some t => t
             | none => 0
           | none => 0) } }

/-- The record update of `handleConfigureGeoRouting`: ensure `metadata`
exists, then assign `urlData.geoRouting` at the top level with
`routes: body.routes || urlData.geoRouting?.routes || []`,
`defaultUrl: body.defaultUrl || urlData.originalUrl` (JS truthiness: a
missing or empty default falls back to the original URL) and
`totalVisits: urlData.geoRouting?.totalVisits || 0`. -/
def applyConfigureGeoRouting (u : URLData) (enabled : Bool)
    (bodyRoutes : Option (List GeoRoute)) (bodyDefaultUrl : Option String) :
    URLData :=
  let meta := match u.metadata with
    | none => ({} : Metadata)
    | some m => m
  { u with
    metadata := some meta
    geoRouting := some
      { enabled := enabled
        routes :=
          match bodyRoutes with
          | some rs => rs
          | none =>
            match u.geoRouting with
            | some g => g.routes
            | none => []
        defaultUrl :=
          match bodyDefaultUrl with
          | some s => if s.isEmpty then u.originalUrl else s
          | none => u.originalUrl
        totalVisits := some
          (match u.geoRouting with
           | some g =>
             match g.totalVisits with
             | some t => t
             | none => 0
           | none => 0) } }

/-! ## Shortening path (src/handlers/shorten.ts) -/

/-- The expiration computation of `handleShorten`:
`if (body.expiresIn && body.expiresIn > 0) expiresAt = createdAt +
body.expiresIn * 1000`; any other `expiresIn` (absent, zero or negative)
leaves `expiresAt` undefined. -/
def computeExpiresAt (createdAt : Nat) (expiresIn : Option Int) : Option Nat :=
  match expiresIn with
  | none => none
  | some e => if 0 < e then some (createdAt + (e * 1000).toNat) else none

/-- The `URLData` record `handleShorten` stores. -/
def mkShortenedRecord (sanitizedUrl shortCode : String) (createdAt : Nat)
    (expiresIn : Option Int) (isCustom : Bool) : URLData :=
  { originalUrl := sanitizedUrl
    shortCode := shortCode
    createdAt := createdAt
    expiresAt := computeExpiresAt createdAt expiresIn
    visitCount := 0
    customCode := isCustom
    metadata := none
    abTest := none
    geoRouting := none }

/-! ## Lemmas about the base62 codec -/

/-- Looking up the character the encoder placed at digit value `i` recovers
`i`: the alphabet has no duplicate symbols. -/
theorem base62IndexOf_getD :
    ∀ i : Fin 62, base62IndexOf (base62Chars.getD i.val ' ') = some i.val := by
  decide

/-- The decoder loop processes an appended list by threading the accumulator. -/
theorem decodeBase62Aux_append (acc : Nat) (xs ys : List Char) :
    decodeBase62Aux acc (xs ++ ys) =
      (decodeBase62Aux acc xs).bind (fun v => decodeBase62Aux v ys) := by
  induction xs generalizing acc with
  | nil => rfl
  | cons c rest ih =>
    simp only [List.cons_append, decodeBase62Aux]
    cases base62IndexOf c with
    | none => rfl
    | some value => exact ih _

/-- Each encoded digit is one of the 62 alphabet symbols. -/
theorem encodeBase62Aux_digit_lt (n : Nat) : (n + 1) % 62 < 62 :=
  Nat.mod_lt _ (by omega)

/-- Running the decoder loop over the encoder loop output recovers the
encoded number below the accumulator shifted by the digit count. -/
theorem decodeBase62Aux_encodeBase62Aux :
    ∀ n acc, decodeBase62Aux acc (encodeBase62Aux n) =
      some (acc * 62 ^ (encodeBase62Aux n).length + n) := by
  intro n
  induction n using Nat.strong_induction_on with
  | _ n ih =>
    intro acc
    match n with
    | 0 => simp [encodeBase62Aux, decodeBase62Aux]
    | m + 1 =>
      have hlt : (m + 1) / 62 < m + 1 := Nat.div_lt_self (Nat.succ_pos m) (by omega)
      have hidx : base62IndexOf (base62Chars.getD ((m + 1) % 62) ' ') =
          some ((m + 1) % 62) :=
        base62IndexOf_getD ⟨(m + 1) % 62, encodeBase62Aux_digit_lt m⟩
      rw [encodeBase62Aux, decodeBase62Aux_append, ih _ hlt acc]
      simp only [decodeBase62Aux, hidx, List.length_append,
        List.length_singleton, Option.some_bind]
      congr 1
      calc (acc * 62 ^ (encodeBase62Aux ((m + 1) / 62)).length + (m + 1) / 62) * 62
            + (m + 1) % 62
          = acc * (62 ^ (encodeBase62Aux ((m + 1) / 62)).length * 62)
            + (62 * ((m + 1) / 62) + (m + 1) % 62) := by ring
        _ = acc * 62 ^ ((encodeBase62Aux ((m + 1) / 62)).length + 1) + (m + 1) := by
            rw [Nat.div_add_mod, pow_succ]

/-- A character outside the alphabet anywhere in the input makes the decoder
loop fail. -/
theorem decodeBase62Aux_none_of_invalid :
    ∀ (xs : List Char) (acc : Nat), (∃ c ∈ xs, base62IndexOf c = none) →
      decodeBase62Aux acc xs = none := by
  intro xs
  induction xs with
  | nil => intro acc h; simp at h
  | cons c rest ih =>
    intro acc h
    simp only [decodeBase62Aux]
    cases hc : base62IndexOf c with
    | none => rfl
    | some value =>
      rcases h with ⟨d, hd, hdnone⟩
      rcases List.mem_cons.mp hd with rfl | hdrest
      · exact absurd hc (by simp [hdnone])
      · exact ih _ ⟨d, hdrest, hdnone⟩

/-- Claim C6: for every natural number `n`, `decodeBase62 (encodeBase62 n)`
recovers `n` exactly (the embedding uses exact `Nat` arithmetic, which agrees
with the JS source on every value representable in the host precision);
encoding maps zero to the first alphabet symbol `"0"`; and decoding fails on
any string containing a character outside the 62-symbol alphabet. -/
theorem c6_base62_round_trip :
    (∀ n : Nat, decodeBase62 (encodeBase62 n) = some n) ∧
      encodeBase62 0 = "0" ∧
      (∀ s : String, (∃ c ∈ s.data, base62IndexOf c = none) →
        decodeBase62 s = none) := by
  refine ⟨fun n => ?_, rfl, fun s h => decodeBase62Aux_none_of_invalid s.data 0 h⟩
  by_cases h0 : n = 0
  · subst h0; decide
  · unfold encodeBase62 decodeBase62
    rw [if_neg h0]
    show decodeBase62Aux 0 (String.mk (encodeBase62Aux n)).data =
      some n
    rw [show (String.mk (encodeBase62Aux n)).data = encodeBase62Aux n from rfl,
      decodeBase62Aux_encodeBase62Aux]
    simp

/-- Witness for claim C6 at concrete inputs: the round trip at `123456789`
and decode failure on a string containing the out-of-alphabet symbol `!`. -/
theorem c6_base62_round_trip_witness :
    decodeBase62 (encodeBase62 123456789) = some 123456789 ∧
      decodeBase62 "ab!" = none :=
  ⟨c6_base62_round_trip.1 123456789,
    c6_base62_round_trip.2.2 "ab!" ⟨'!', by decide, by decide⟩⟩

/-! ## Lemmas about the unique-code resolver -/

/-- A successful run of the retry loop returns the candidate of the first
non-colliding attempt in the window it scans. -/
theorem uniqueLoop_ok (gen : Nat → String) (ex : String → Bool) :
    ∀ remaining attempt c, uniqueLoop gen ex attempt remaining = .ok c →
      ex c = false ∧ ∃ i, attempt ≤ i ∧ i < attempt + remaining ∧
        c = gen i ∧ ∀ j, attempt ≤ j → j < i → ex (gen j) = true := by
  intro remaining
  induction remaining with
  | zero => intro attempt c h; exact absurd h (by simp [uniqueLoop])
  | succ r ih =>
    intro attempt c h
    rw [uniqueLoop] at h
    by_cases hex : ex (gen attempt) = true
    · rw [if_pos hex] at h
      obtain ⟨hc, i, hi1, hi2, hcgen, hall⟩ := ih (attempt + 1) c h
      refine ⟨hc, i, by omega, by omega, hcgen, fun j hj1 hj2 => ?_⟩
      by_cases hj : j = attempt
      · exact hj ▸ hex
      · exact hall j (by omega) hj2
    · rw [if_neg hex] at h
      cases h
      exact ⟨Bool.not_eq_true _ ▸ hex, attempt, le_refl _, by omega, rfl,
        fun j hj1 hj2 => absurd (lt_of_le_of_lt hj1 hj2) (lt_irrefl _)⟩

/-- When every attempt in the scanned window collides, the loop throws. -/
theorem uniqueLoop_exhausted (gen : Nat → String) (ex : String → Bool) :
    ∀ remaining attempt,
      (∀ i, attempt ≤ i → i < attempt + remaining → ex (gen i) = true) →
      uniqueLoop gen ex attempt remaining = .error .codeSpaceExhausted := by
  intro remaining
  induction remaining with
  | zero => intro attempt _; rfl
  | succ r ih =>
    intro attempt hall
    rw [uniqueLoop, if_pos (hall attempt (le_refl _) (by omega))]
    exact ih (attempt + 1) (fun i hi1 hi2 => hall i (by omega) (by omega))

/-- Claim C5: for every candidate generator, existence probe and retry bound,
the unique-code resolver scans attempts `0 .. maxRetries-1` in order and
returns the candidate of the first attempt whose code does not exist (so an
`ok` result never names a code whose existence check was `true`), and when
every attempt collides it fails with the code-space-exhausted error. -/
theorem c5_unique_code_resolver (gen : Nat → String) (ex : String → Bool)
    (maxRetries : Nat) :
    (∀ c, generateUniqueShortCode gen ex maxRetries = .ok c →
      ex c = false ∧ ∃ i, i < maxRetries ∧ c = gen i ∧
        ∀ j, j < i → ex (gen j) = true) ∧
      ((∀ i, i < maxRetries → ex (gen i) = true) →
        generateUniqueShortCode gen ex maxRetries = .error .codeSpaceExhausted) := by
  constructor
  · intro c h
    obtain ⟨hc, i, _, hi2, hcgen, hall⟩ := uniqueLoop_ok gen ex maxRetries 0 c h
    exact ⟨hc, i, by omega, hcgen, fun j hj => hall j (Nat.zero_le _) hj⟩
  · intro hall
    exact uniqueLoop_exhausted gen ex maxRetries 0
      (fun i _ hi => hall i (by omega))

/-- A concrete collision scenario for the witness: attempt 0 collides,
attempt 1 is free. -/
def witnessGen : Nat → String := fun attempt => if attempt = 0 then "aaa" else "bbb"

/-- The concrete existence probe for the witness: only `"aaa"` is taken. -/
def witnessEx : String → Bool := fun code => code == "aaa"

/-- Witness for claim C5 at a concrete input: with the probe above and two
retries, the resolver returns the attempt-1 candidate `"bbb"`, which the
probe reports absent, after the colliding attempt 0. -/
theorem c5_unique_code_resolver_witness :
    witnessEx "bbb" = false ∧ ∃ i, i < 2 ∧ "bbb" = witnessGen i ∧
      ∀ j, j < i → witnessEx (witnessGen j) = true :=
  (c5_unique_code_resolver witnessGen witnessEx 2).1 "bbb" (by rfl)

/-! ## Claim C8: the custom-code validator -/

/-- Counterexample to claim C8 as stated: the string `"API"` has length 3,
consists only of ASCII letters, and is not itself a member of the reserved
denylist, yet the validator rejects it, because the source compares
`customCode.toLowerCase()` against the denylist. -/
theorem c8_validator_counterexample :
    (3 ≤ "API".length ∧ "API".length ≤ 20 ∧
      "API".data.all isValidCodeChar = true ∧
      reservedCodes.contains "API" = false) ∧
      validateCustomCode "API" = .error .validationError :=
  ⟨by decide, by decide⟩

/-- Claim C8 as amended: the validator accepts `s` iff `s` has length between
3 and 20 inclusive, consists only of ASCII letters, digits, hyphens and
underscores, and the lowercase form of `s` is not a reserved keyword of the
fixed denylist; otherwise it fails with a validation error. -/
theorem c8_validator_amended (s : String) :
    validateCustomCode s = .ok true ↔
      3 ≤ s.length ∧ s.length ≤ 20 ∧ s.data.all isValidCodeChar = true ∧
        reservedCodes.contains (strToLower s) = false := by
  have hlen : s.length = s.data.length := rfl
  unfold validateCustomCode
  split_ifs with h1 h2 h3
  · simp only [Bool.or_eq_true, decide_eq_true_eq] at h1
    constructor
    · intro h; exact absurd h (by simp)
    · rintro ⟨ha, hb, -, -⟩; omega
  · simp only [Bool.not_eq_eq_eq_not, Bool.not_true, matchesValidPattern,
      Bool.and_eq_false_iff] at h2
    constructor
    · intro h; exact absurd h (by simp)
    · rintro ⟨ha, -, hall, -⟩
      have hne : s.data.isEmpty = false := by
        cases hd : s.data with
        | nil => rw [hd] at hlen; simp at hlen; omega
        | cons c rest => rfl
      rcases h2 with h2 | h2
      · rw [hne] at h2; exact absurd h2 (by simp)
      · rw [hall] at h2; exact absurd h2 (by simp)
  · constructor
    · intro h; exact absurd h (by simp)
    · rintro ⟨-, -, -, hres⟩; rw [h3] at hres; exact absurd hres (by simp)
  · simp only [Bool.or_eq_true, decide_eq_true_eq, not_or] at h1
    simp only [Bool.not_eq_eq_eq_not, Bool.not_true, Bool.not_eq_false,
      matchesValidPattern, Bool.and_eq_true] at h2
    simp only [Bool.not_eq_true] at h3
    constructor
    · intro _; exact ⟨by omega, by omega, h2.2, h3⟩
    · intro _; rfl

/-- Witness for the amended claim C8 at a concrete input: `"my-link"` is
accepted. -/
theorem c8_validator_amended_witness :
    validateCustomCode "my-link" = .ok true :=
  (c8_validator_amended "my-link").mpr (by decide)

/-! ## Claim C9: variant selection with all-zero weights -/

/-- The weight reduce of `selectVariant` over all-zero weights keeps the
accumulator. -/
theorem foldl_weights_zero (l : List ABTestVariant) :
    ∀ q : ℚ, (∀ v ∈ l, v.weight = 0) →
      l.foldl (fun sum v => sum + v.weight) q = q := by
  induction l with
  | nil => intro q _; rfl
  | cons v rest ih =>
    intro q h
    simp only [List.foldl_cons]
    rw [h v (List.mem_cons_self v rest), add_zero]
    exact ih q (fun w hw => h w (List.mem_cons_of_mem v hw))

/-- Claim C9: for every non-empty variant list whose weights are all zero and
every value of `Math.random()`, the selector deterministically returns the
first variant: the total weight reduces to 0, the random draw becomes 0, and
the first cumulative-weight comparison `0 <= 0` already succeeds. -/
theorem c9_zero_weight_selection (variants : List ABTestVariant) (rnd : ℚ)
    (hne : variants ≠ []) (hzero : ∀ v ∈ variants, v.weight = 0) :
    selectVariant variants rnd = variants.head? := by
  match variants, hne with
  | v :: rest, _ =>
    have hv : v.weight = 0 := hzero v (List.mem_cons_self v rest)
    unfold selectVariant
    rw [foldl_weights_zero (v :: rest) 0 hzero]
    simp [selectVariantLoop, hv]

/-- Concrete all-zero variants for the witness. -/
def zeroVariantA : ABTestVariant :=
  { url := "https://a.example", weight := 0, name := none, visitCount := some 0 }

/-- Second concrete all-zero variant for the witness. -/
def zeroVariantB : ABTestVariant :=
  { url := "https://b.example", weight := 0, name := none, visitCount := some 0 }

/-- Witness for claim C9 at a concrete input: with two zero-weight variants
and `Math.random()` drawing one half, the first variant is selected. -/
theorem c9_zero_weight_selection_witness :
    selectVariant [zeroVariantA, zeroVariantB] (1 / 2) = some zeroVariantA :=
  c9_zero_weight_selection [zeroVariantA, zeroVariantB] (1 / 2)
    (by simp) (by decide)

/-! ## Claim C7: geo rule matching precedence -/

/-- The spec-level notion of a rule matching both country and region: the
request carries a (truthy) country and region and the rule agrees on both. -/
def matchesRegionRule (geoInfo : GeoInfo) (r : GeoRoute) : Bool :=
  isTruthyStr geoInfo.country && isTruthyStr geoInfo.region &&
    regionRuleMatch geoInfo r

/-- The spec-level notion of a rule matching country alone: the request
carries a country, the rule agrees on it and carries no region. -/
def matchesCountryRule (geoInfo : GeoInfo) (r : GeoRoute) : Bool :=
  isTruthyStr geoInfo.country && countryRuleMatch geoInfo r

/-- The spec-level notion of a rule matching continent: the request carries a
continent and the rule agrees on it. -/
def matchesContinentRule (geoInfo : GeoInfo) (r : GeoRoute) : Bool :=
  isTruthyStr geoInfo.continent && continentRuleMatch geoInfo r

/-- If some rule matches country + region, the exact branch hits and yields a
country + region match. -/
theorem exactBranch_some (geoInfo : GeoInfo) (routes : List GeoRoute)
    (h : ∃ r ∈ routes, matchesRegionRule geoInfo r = true) :
    ∃ m, exactBranch geoInfo routes = some m ∧
      matchesRegionRule geoInfo m = true := by
  obtain ⟨r, hr, hm⟩ := h
  simp only [matchesRegionRule, Bool.and_eq_true] at hm
  obtain ⟨⟨hc, hreg⟩, hrule⟩ := hm
  have hsome : (routes.find? (regionRuleMatch geoInfo)).isSome :=
    List.find?_isSome.mpr ⟨r, hr, hrule⟩
  obtain ⟨m, hfind⟩ := Option.isSome_iff_exists.mp hsome
  refine ⟨m, ?_, ?_⟩
  · unfold exactBranch
    rw [if_pos (by rw [hc, hreg]; rfl), hfind]
  · simp [matchesRegionRule, hc, hreg, List.find?_some hfind]

/-- If no rule matches country + region, the exact branch misses. -/
theorem exactBranch_none (geoInfo : GeoInfo) (routes : List GeoRoute)
    (h : ∀ r ∈ routes, matchesRegionRule geoInfo r = false) :
    exactBranch geoInfo routes = none := by
  unfold exactBranch
  by_cases hg : (isTruthyStr geoInfo.country && isTruthyStr geoInfo.region) = true
  · rw [if_pos hg]
    refine List.find?_eq_none.mpr (fun r hr hrule => ?_)
    have : matchesRegionRule geoInfo r = true := by
      simp only [matchesRegionRule, Bool.and_eq_true] at hg ⊢
      exact ⟨hg, hrule⟩
    rw [h r hr] at this
    exact Bool.false_ne_true this
  · rw [if_neg hg]

/-- If some rule matches country alone, the country branch hits and yields a
country match. -/
theorem countryBranch_some (geoInfo : GeoInfo) (routes : List GeoRoute)
    (h : ∃ r ∈ routes, matchesCountryRule geoInfo r = true) :
    ∃ m, countryBranch geoInfo routes = some m ∧
      matchesCountryRule geoInfo m = true := by
  obtain ⟨r, hr, hm⟩ := h
  simp only [matchesCountryRule, Bool.and_eq_true] at hm
  obtain ⟨hc, hrule⟩ := hm
  have hsome : (routes.find? (countryRuleMatch geoInfo)).isSome :=
    List.find?_isSome.mpr ⟨r, hr, hrule⟩
  obtain ⟨m, hfind⟩ := Option.isSome_iff_exists.mp hsome
  refine ⟨m, ?_, ?_⟩
  · unfold countryBranch
    rw [if_pos hc, hfind]
  · simp [matchesCountryRule, hc, List.find?_some hfind]

/-- If no rule matches country alone, the country branch misses. -/
theorem countryBranch_none (geoInfo : GeoInfo) (routes : List GeoRoute)
    (h : ∀ r ∈ routes, matchesCountryRule geoInfo r = false) :
    countryBranch geoInfo routes = none := by
  unfold countryBranch
  by_cases hg : isTruthyStr geoInfo.country = true
  · rw [if_pos hg]
    refine List.find?_eq_none.mpr (fun r hr hrule => ?_)
    have : matchesCountryRule geoInfo r = true := by
      simp only [matchesCountryRule, Bool.and_eq_true]
      exact ⟨hg, hrule⟩
    rw [h r hr] at this
    exact Bool.false_ne_true this
  · rw [if_neg hg]

/-- If some rule matches continent, the continent branch hits and yields a
continent match. -/
theorem continentBranch_some (geoInfo : GeoInfo) (routes : List GeoRoute)
    (h : ∃ r ∈ routes, matchesContinentRule geoInfo r = true) :
    ∃ m, continentBranch geoInfo routes = some m ∧
      matchesContinentRule geoInfo m = true := by
  obtain ⟨r, hr, hm⟩ := h
  simp only [matchesContinentRule, Bool.and_eq_true] at hm
  obtain ⟨hc, hrule⟩ := hm
  have hsome : (routes.find? (continentRuleMatch geoInfo)).isSome :=
    List.find?_isSome.mpr ⟨r, hr, hrule⟩
  obtain ⟨m, hfind⟩ := Option.isSome_iff_exists.mp hsome
  refine ⟨m, ?_, ?_⟩
  · unfold continentBranch
    rw [if_pos hc, hfind]
  · simp [matchesContinentRule, hc, List.find?_some hfind]

/-- If no rule matches continent, the continent branch misses. -/
theorem continentBranch_none (geoInfo : GeoInfo) (routes : List GeoRoute)
    (h : ∀ r ∈ routes, matchesContinentRule geoInfo r = false) :
    continentBranch geoInfo routes = none := by
  unfold continentBranch
  by_cases hg : isTruthyStr geoInfo.continent = true
  · rw [if_pos hg]
    refine List.find?_eq_none.mpr (fun r hr hrule => ?_)
    have : matchesContinentRule geoInfo r = true := by
      simp only [matchesContinentRule, Bool.and_eq_true]
      exact ⟨hg, hrule⟩
    rw [h r hr] at this
    exact Bool.false_ne_true this
  · rw [if_neg hg]

/-- The example rule `{country: US, dest: X}` of the claim. -/
def usRule : GeoRoute :=
  { country := some "US", continent := none, region := none,
    url := "X", name := none, visitCount := none }

/-- The example rule `{continent: NA, dest: Y}` of the claim. -/
def naRule : GeoRoute :=
  { country := none, continent := some "NA", region := none,
    url := "Y", name := none, visitCount := none }

/-- The example request geography `{country: US, continent: NA}`. -/
def usGeoInfo : GeoInfo :=
  { country := some "US", continent := some "NA", region := none,
    city := none, latitude := none, longitude := none, timezone := none }

/-- The example request geography `{country: CA, continent: NA}`. -/
def caGeoInfo : GeoInfo :=
  { country := some "CA", continent := some "NA", region := none,
    city := none, latitude := none, longitude := none, timezone := none }

/-- Claim C7: the matcher prefers a rule matching both country and region
over a rule matching country alone, which it prefers over a rule matching
continent; when no rule matches, the handler falls back to the configured
default destination; and on the concrete inputs of the claim, `{country: US,
continent: NA}` resolves to the US rule (destination X) while `{country: CA,
continent: NA}` resolves to the NA rule (destination Y). -/
theorem c7_geo_precedence :
    (∀ (geoInfo : GeoInfo) (routes : List GeoRoute),
      ((∃ r ∈ routes, matchesRegionRule geoInfo r = true) →
        ∃ m, findMatchingRoute geoInfo routes = some m ∧
          matchesRegionRule geoInfo m = true) ∧
      ((∀ r ∈ routes, matchesRegionRule geoInfo r = false) →
        (∃ r ∈ routes, matchesCountryRule geoInfo r = true) →
        ∃ m, findMatchingRoute geoInfo routes = some m ∧
          matchesCountryRule geoInfo m = true) ∧
      ((∀ r ∈ routes, matchesRegionRule geoInfo r = false) →
        (∀ r ∈ routes, matchesCountryRule geoInfo r = false) →
        (∃ r ∈ routes, matchesContinentRule geoInfo r = true) →
        ∃ m, findMatchingRoute geoInfo routes = some m ∧
          matchesContinentRule geoInfo m = true) ∧
      ((∀ r ∈ routes, matchesRegionRule geoInfo r = false ∧
          matchesCountryRule geoInfo r = false ∧
          matchesContinentRule geoInfo r = false) →
        findMatchingRoute geoInfo routes = none)) ∧
    (∀ (geoInfo : GeoInfo) (cfg : GeoRoutingConfig),
      (∀ r ∈ cfg.routes, matchesRegionRule geoInfo r = false ∧
        matchesCountryRule geoInfo r = false ∧
        matchesContinentRule geoInfo r = false) →
      geoTargetUrl geoInfo cfg = cfg.defaultUrl) ∧
    (findMatchingRoute usGeoInfo [usRule, naRule] = some usRule ∧
      usRule.url = "X") ∧
    (findMatchingRoute caGeoInfo [usRule, naRule] = some naRule ∧
      naRule.url = "Y") := by
  have hnone : ∀ (geoInfo : GeoInfo) (routes : List GeoRoute),
      (∀ r ∈ routes, matchesRegionRule geoInfo r = false ∧
        matchesCountryRule geoInfo r = false ∧
        matchesContinentRule geoInfo r = false) →
      findMatchingRoute geoInfo routes = none := by
    intro geoInfo routes h
    unfold findMatchingRoute
    rw [exactBranch_none geoInfo routes (fun r hr => (h r hr).1),
      countryBranch_none geoInfo routes (fun r hr => (h r hr).2.1),
      continentBranch_none geoInfo routes (fun r hr => (h r hr).2.2)]
  refine ⟨fun geoInfo routes => ⟨?_, ?_, ?_, hnone geoInfo routes⟩,
    ?_, by decide, by decide⟩
  · intro h
    obtain ⟨m, hm, hmatch⟩ := exactBranch_some geoInfo routes h
    exact ⟨m, by unfold findMatchingRoute; rw [hm], hmatch⟩
  · intro hno h
    obtain ⟨m, hm, hmatch⟩ := countryBranch_some geoInfo routes h
    refine ⟨m, ?_, hmatch⟩
    unfold findMatchingRoute
    rw [exactBranch_none geoInfo routes hno, hm]
  · intro hno1 hno2 h
    obtain ⟨m, hm, hmatch⟩ := continentBranch_some geoInfo routes h
    refine ⟨m, ?_, hmatch⟩
    unfold findMatchingRoute
    rw [exactBranch_none geoInfo routes hno1,
      countryBranch_none geoInfo routes hno2, hm]
  · intro geoInfo cfg h
    unfold geoTargetUrl
    rw [hnone geoInfo cfg.routes h]

/-- Concrete region-specific geography for the C7 witness. -/
def regionGeoInfo : GeoInfo :=
  { country := some "US", continent := some "NA", region := some "CA",
    city := none, latitude := none, longitude := none, timezone := none }

/-- Concrete region-specific rule for the C7 witness. -/
def regionRule : GeoRoute :=
  { country := some "US", continent := none, region := some "CA",
    url := "Z", name := none, visitCount := none }

/-- Witness for claim C7 at a concrete input: with a country-only US rule and
a US+CA region rule both present, a US/CA request is matched by a rule
matching both country and region. -/
theorem c7_geo_precedence_witness :
    ∃ m, findMatchingRoute regionGeoInfo [usRule, regionRule] = some m ∧
      matchesRegionRule regionGeoInfo m = true :=
  (c7_geo_precedence.1 regionGeoInfo [usRule, regionRule]).1
    ⟨regionRule, by simp, by decide⟩

/-! ## Claim C10: the KV adapter never surfaces an expired record -/

/-- Claim C10: `KVStorage.get` never returns an expired record — every record
it returns fails the expiration test, and a stored record whose `expiresAt`
has passed is deleted and reported as absent, so the redirect path sees
exactly what it would see for a missing code (`NotFound`), regardless of the
accounting-write outcome. -/
theorem c10_kv_get_hides_expired :
    (∀ (store : KVStore) (now : Nat) (shortCode : String) (data : URLData),
      (kvGet store now shortCode).1 = some data →
        isExpiredAt now data.expiresAt = false) ∧
    (∀ (store : KVStore) (now : Nat) (shortCode : String) (data : URLData),
      store shortCode = some data → isExpiredAt now data.expiresAt = true →
        (kvGet store now shortCode).1 = none ∧
        (kvGet store now shortCode).2 shortCode = none ∧
        ∀ incFails, resolveRedirectKV store now shortCode incFails =
          .error .notFound) := by
  constructor
  · intro store now shortCode data h
    cases hs : store shortCode with
    | none => simp [kvGet, hs] at h
    | some d =>
      simp only [kvGet, hs] at h
      by_cases hexp : isExpiredAt now d.expiresAt = true
      · simp [hexp] at h
      · simp only [hexp, if_false, Bool.false_eq_true, if_neg] at h
        simp only [Option.some.injEq] at h
        rw [← h]
        exact Bool.not_eq_true _ ▸ hexp
  · intro store now shortCode data hs hexp
    have hget : kvGet store now shortCode = (none, kvDelete store shortCode) := by
      simp [kvGet, hs, hexp]
    refine ⟨by rw [hget], ?_, fun incFails => ?_⟩
    · rw [hget]
      simp [kvDelete]
    · unfold resolveRedirectKV
      rw [hget]
      rfl

/-- Concrete expired store for the C10 witness and the C1 failing input: the
code `"abc"` maps to a record whose `expiresAt = 5` lies before the access
time `now = 10`. -/
def expiredRecord : URLData :=
  { originalUrl := "https://example.com", shortCode := "abc", createdAt := 1,
    expiresAt := some 5, visitCount := 0, customCode := false,
    metadata := none, abTest := none, geoRouting := none }

/-- The store holding only `expiredRecord` under `"abc"`. -/
def expiredStore : KVStore :=
  fun k => if k == "abc" then some expiredRecord else none

/-- Witness for claim C10 at a concrete input: the expired record above is
reported absent, deleted, and resolved as `NotFound`. -/
theorem c10_kv_get_hides_expired_witness :
    (kvGet expiredStore 10 "abc").1 = none ∧
      (kvGet expiredStore 10 "abc").2 "abc" = none ∧
      ∀ incFails, resolveRedirectKV expiredStore 10 "abc" incFails =
        .error .notFound :=
  c10_kv_get_hides_expired.2 expiredStore 10 "abc" expiredRecord
    (by decide) (by decide)

/-! ## Claim C1: resolving an expired record -/

/-- Claim C1 evaluated at its failing input: the record stored under `"abc"`
has an `expiresAt` strictly in the past at access time, yet the composed
access path (`KVStorage.get` feeding `handleRedirect`) resolves it to
`NotFound`, not to `Gone` — `KVStorage.get` has already deleted the record
and reported it absent, so the handler's `Gone` branch never sees it. -/
theorem c1_expired_record_resolves_notfound :
    isExpiredAt 10 expiredRecord.expiresAt = true ∧
      resolveRedirectKV expiredStore 10 "abc" false = .error .notFound ∧
      resolveRedirectKV expiredStore 10 "abc" false ≠ .error .gone := by
  refine ⟨by decide, by decide, by decide⟩

/-! ## Claim C4: shortening with `expiresIn = -1` -/

/-- The record `handleShorten` stores for a request with `expiresIn = -1`
(custom code `"expired"`, created at time 1000). -/
def c4Record : URLData :=
  mkShortenedRecord "https://example.com" "expired" 1000 (some (-1)) true

/-- The store after that shortening request. -/
def c4Store : KVStore :=
  fun k => if k == "expired" then some c4Record else none

/-- Claim C4 evaluated at its failing input: shortening with `expiresIn = -1`
succeeds but stores a record with no `expiresAt` at all (the guard
`body.expiresIn > 0` skips the assignment), so every subsequent access
resolves to a 302 redirect to the destination — neither `Gone` nor
`NotFound` — even long after creation. -/
theorem c4_negative_expiresIn_redirects :
    c4Record.expiresAt = none ∧
      resolveRedirectKV c4Store 999999999999 "expired" false =
        .ok "https://example.com" ∧
      resolveRedirectKV c4Store 999999999999 "expired" false ≠
        .error .gone := by
  refine ⟨by decide, by decide, by decide⟩

/-! ## Claim C2: dispatch against the stored extension configuration -/

/-- A freshly shortened record with no extensions configured. -/
def freshRecord : URLData :=
  { originalUrl := "https://example.com", shortCode := "abc", createdAt := 1,
    expiresAt := none, visitCount := 0, customCode := false,
    metadata := none, abTest := none, geoRouting := none }

/-- A concrete 50/50 A variant. -/
def variantA : ABTestVariant :=
  { url := "https://a.example", weight := 50, name := some "A",
    visitCount := some 0 }

/-- A concrete 50/50 B variant. -/
def variantB : ABTestVariant :=
  { url := "https://b.example", weight := 50, name := some "B",
    visitCount := some 0 }

/-- The record after `POST /api/abtest/abc` enabling two variants. -/
def abConfiguredRecord : URLData :=
  applyConfigureABTest freshRecord true (some [variantA, variantB])

/-- The record after `POST /api/georoute/abc` enabling one route. -/
def geoConfiguredRecord : URLData :=
  applyConfigureGeoRouting freshRecord true (some [naRule])
    (some "https://default.example")

/-- A record whose `metadata` bag carries both an enabled variant set and an
enabled geo rule set (the shape the router actually inspects). -/
def bothEnabledRecord : URLData :=
  { freshRecord with
    metadata := some
      { abTest := some
          { enabled := true, variants := [variantA, variantB],
            totalVisits := some 0 }
        geoRouting := some
          { enabled := true, routes := [naRule],
            defaultUrl := "https://default.example", totalVisits := some 0 } } }

/-- Claim C2 evaluated at its failing inputs.  First: the configuration
endpoints store the enabled extension at the top level of the record
(`urlData.abTest` / `urlData.geoRouting`), but the router's dispatch reads
`urlData.metadata.abTest` / `urlData.metadata.geoRouting`, so a record that
carries an enabled variant set (resp. geo rule set) freshly stored by the
configuration endpoint is still dispatched to the plain redirect handler.
Second: even for a metadata bag carrying both enabled extensions, the router
checks geo routing before A/B testing, the opposite of the claimed
precedence. -/
theorem c2_dispatch_ignores_stored_config :
    (abConfiguredRecord.abTest = some
        { enabled := true, variants := [variantA, variantB],
          totalVisits := some 0 } ∧
      dispatchRedirect (some abConfiguredRecord) = .plainRedirect) ∧
    (geoConfiguredRecord.geoRouting = some
        { enabled := true, routes := [naRule],
          defaultUrl := "https://default.example", totalVisits := some 0 } ∧
      dispatchRedirect (some geoConfiguredRecord) = .plainRedirect) ∧
    dispatchRedirect (some bothEnabledRecord) = .geoRouted := by
  refine ⟨⟨by decide, by decide⟩, ⟨by decide, by decide⟩, by decide⟩

/-! ## Claim C3: accounting failures and the redirect outcome -/

/-- A record whose A/B extension is present but disabled: the access falls
back to the original URL through `await storage.incrementStats` with no
catch. -/
def disabledABRecord : URLData :=
  { freshRecord with
    abTest := some { enabled := false, variants := [], totalVisits := none } }

/-- Counterexample to claim C3 as stated: on the A/B fallback path (extension
disabled and empty), a failing visit-count write changes the outcome — with
the write succeeding the handler redirects to the original URL, with the
write failing the error propagates and no destination is returned. -/
theorem c3_accounting_counterexample :
    handleABTestRedirect (some disabledABRecord) 10 (1 / 2) false =
        .ok "https://example.com" ∧
      handleABTestRedirect (some disabledABRecord) 10 (1 / 2) true =
        .error .statsFailure := by
  refine ⟨by decide, by decide⟩

/-- Claim C3 as amended: an accounting-write failure never changes the
outcome on the plain-destination path (`handleRedirect`, where the write is
fire-and-forget) nor on the variant and geo dispatch paths (where the stats
update failure is swallowed); but on the A/B and geo fallback paths —
extension present yet disabled or empty — the visit-count write is awaited
without a catch, so its failure propagates and replaces the redirect. -/
theorem c3_accounting_amended :
    (∀ (urlData : Option URLData) (now : Nat) (f1 f2 : Bool),
      handleRedirect urlData now f1 = handleRedirect urlData now f2) ∧
    (∀ (d : URLData) (now : Nat) (rnd : ℚ) (ab : ABTestConfig) (f1 f2 : Bool),
      d.abTest = some ab → ab.enabled = true → ab.variants ≠ [] →
      handleABTestRedirect (some d) now rnd f1 =
        handleABTestRedirect (some d) now rnd f2) ∧
    (∀ (d : URLData) (geoInfo : GeoInfo) (now : Nat) (g : GeoRoutingConfig)
      (f1 f2 : Bool),
      d.geoRouting = some g → g.enabled = true → g.routes ≠ [] →
      handleGeoRoutedRedirect (some d) geoInfo now f1 =
        handleGeoRoutedRedirect (some d) geoInfo now f2) ∧
    (∀ (d : URLData) (now : Nat) (rnd : ℚ) (ab : ABTestConfig),
      d.abTest = some ab → (ab.enabled = false ∨ ab.variants = []) →
      isExpiredAt now d.expiresAt = false →
      handleABTestRedirect (some d) now rnd true = .error .statsFailure) ∧
    (∀ (d : URLData) (geoInfo : GeoInfo) (now : Nat) (g : GeoRoutingConfig),
      d.geoRouting = some g → (g.enabled = false ∨ g.routes = []) →
      isExpiredAt now d.expiresAt = false →
      handleGeoRoutedRedirect (some d) geoInfo now true =
        .error .statsFailure) := by
  refine ⟨fun urlData now f1 f2 => rfl, ?_, ?_, ?_, ?_⟩
  · intro d now rnd ab f1 f2 hab hen hne
    have hempty : ab.variants.isEmpty = false := by
      cases hv : ab.variants with
      | nil => exact absurd hv hne
      | cons v rest => rfl
    simp [handleABTestRedirect, hab, hen, hempty]
  · intro d geoInfo now g f1 f2 hg hen hne
    have hempty : g.routes.isEmpty = false := by
      cases hv : g.routes with
      | nil => exact absurd hv hne
      | cons r rest => rfl
    simp [handleGeoRoutedRedirect, hg, hen, hempty]
  · intro d now rnd ab hab hdis hexp
    have hcond : (!ab.enabled || ab.variants.isEmpty) = true := by
      rcases hdis with hdis | hdis
      · rw [hdis]; rfl
      · rw [hdis]; simp
    simp [handleABTestRedirect, hab, hexp, hcond]
  · intro d geoInfo now g hg hdis hexp
    have hcond : (!g.enabled || g.routes.isEmpty) = true := by
      rcases hdis with hdis | hdis
      · rw [hdis]; rfl
      · rw [hdis]; simp
    simp [handleGeoRoutedRedirect, hg, hexp, hcond]

/-- A record with an enabled two-variant A/B extension at the top level, as
the A/B redirect handler itself reads it. -/
def enabledABRecord : URLData :=
  { freshRecord with
    abTest := some
      { enabled := true, variants := [variantA, variantB],
        totalVisits := some 0 } }

/-- Witness for the amended claim C3 at a concrete input: on the variant path
the outcome is the same whether the stats write fails or not. -/
theorem c3_accounting_amended_witness :
    handleABTestRedirect (some enabledABRecord) 10 (1 / 2) true =
      handleABTestRedirect (some enabledABRecord) 10 (1 / 2) false :=
  c3_accounting_amended.2.1 enabledABRecord 10 (1 / 2)
    { enabled := true, variants := [variantA, variantB], totalVisits := some 0 }
    true false rfl rfl (by simp)

end Shortener
